import Mathlib

/-
  Verification of the key lifecycle subsystem of xmidt-org/utu.

  The Go sources are shallowly embedded: each Go function relevant to the
  properties below is translated into an executable Lean definition.
  Opaque library values (jwk.Key handles, public key material, marshaled
  JSON bytes) are modelled as abstract numeric handles; the JSON
  serialization of the public key set is modelled as the list of public
  key handles it contains.  Fallible Go calls are passed in as explicit
  `Except`/`Option` outcomes, so that a single Lean function captures every
  possible run of the corresponding Go function.
-/

namespace Utu

/-- Signing algorithm tags (jwa.KeyAlgorithm values used by keyGenerator.go). -/
inductive Alg
  | ES256
  | ES384
  | ES512
  | RS256
deriving DecidableEq, Repr

/-- Elliptic curves selectable in NewKeyGenerator (keyGenerator.go). -/
inductive Curve
  | P256
  | P384
  | P521
deriving DecidableEq, Repr

/--
GeneratedKey (keyGenerator.go): the immutable record produced by key
generation.  `keyID` models the result of the jwk key's `KeyID()` accessor
(`some kid` once `key.Set(jwk.KeyIDKey, kid)` has run, `none` otherwise);
`publicKey` is an opaque handle for the public key material.
-/
structure GeneratedKey where
  alg : Alg
  kid : String
  keyID : Option String
  publicKey : Nat
deriving DecidableEq, Repr

/-- KID (keyGenerator.go): returns the unique key identifier. -/
def GeneratedKey.KID (gk : GeneratedKey) : String :=
  gk.kid

/- Go map operations, modelled on association lists with the usual
   replace-on-insert semantics. -/

/-- Lookup in a Go map: the value stored at key `k`, if any. -/
def mapLookup {V : Type} (m : List (String × V)) (k : String) : Option V :=
  match m with
  | [] => none
  | (k0, v) :: rest => if k0 = k then some v else mapLookup rest k

/-- `delete(m, k)`: remove the binding of key `k`. -/
def mapErase {V : Type} (m : List (String × V)) (k : String) : List (String × V) :=
  match m with
  | [] => []
  | (k0, v) :: rest => if k0 = k then mapErase rest k else (k0, v) :: mapErase rest k

/-- `m[k] = v`: bind `k` to `v`, replacing any previous binding. -/
def mapInsert {V : Type} (m : List (String × V)) (k : String) (v : V) : List (String × V) :=
  (k, v) :: mapErase m k

theorem mapLookup_mapInsert_self {V : Type} (m : List (String × V)) (k : String) (v : V) :
    mapLookup (mapInsert m k v) k = some v := by
  simp [mapInsert, mapLookup]

theorem mapLookup_mapErase_ne {V : Type} (m : List (String × V)) (a b : String)
    (h : a ≠ b) : mapLookup (mapErase m b) a = mapLookup m a := by
  induction m with
  | nil => rfl
  | cons p rest ih =>
    cases p with
    | mk k0 v =>
      by_cases hkb : k0 = b
      · have hka : k0 ≠ a := fun hc => h (hc ▸ hkb)
        simp only [mapErase, if_pos hkb, mapLookup, if_neg hka]
        exact ih
      · by_cases hka : k0 = a
        · simp only [mapErase, if_neg hkb, mapLookup, if_pos hka]
        · simp only [mapErase, if_neg hkb, mapLookup, if_neg hka]
          exact ih

theorem mapLookup_eq_none_iff {V : Type} (m : List (String × V)) (k : String) :
    mapLookup m k = none ↔ k ∉ m.map Prod.fst := by
  induction m with
  | nil => simp [mapLookup]
  | cons p rest ih =>
    cases p with
    | mk k0 v =>
      by_cases hk : k0 = k
      · subst hk
        simp [mapLookup]
      · simp only [mapLookup, if_neg hk, List.map_cons, List.mem_cons]
        rw [ih]
        constructor
        · intro hn hc
          rcases hc with hc | hc
          · exact hk hc.symm
          · exact hn hc
        · intro hn hc
          exact hn (Or.inr hc)

theorem mapErase_eq_self_of_lookup_none {V : Type} (m : List (String × V)) (k : String)
    (h : mapLookup m k = none) : mapErase m k = m := by
  induction m with
  | nil => rfl
  | cons p rest ih =>
    cases p with
    | mk k0 v =>
      by_cases hk : k0 = k
      · simp [mapLookup, hk] at h
      · simp only [mapLookup, if_neg hk] at h
        simp [mapErase, hk, ih h]

theorem mapErase_sublist {V : Type} (m : List (String × V)) (k : String) :
    (mapErase m k).Sublist m := by
  induction m with
  | nil => exact List.Sublist.refl _
  | cons p rest ih =>
    cases p with
    | mk k0 v =>
      by_cases hk : k0 = k
      · simp only [mapErase, if_pos hk]
        exact ih.cons _
      · simp only [mapErase, if_neg hk]
        exact ih.cons₂ _

theorem mem_of_mapLookup_eq_some {V : Type} (m : List (String × V)) (k : String) (v : V)
    (h : mapLookup m k = some v) : (k, v) ∈ m := by
  induction m with
  | nil => simp [mapLookup] at h
  | cons p rest ih =>
    cases p with
    | mk k0 v0 =>
      by_cases hk : k0 = k
      · simp only [mapLookup, if_pos hk] at h
        cases h
        subst hk
        exact List.mem_cons_self _ _
      · simp only [mapLookup, if_neg hk] at h
        exact List.mem_cons_of_mem _ (ih h)

theorem mapLookup_eq_some_of_mem {V : Type} (m : List (String × V)) (k : String) (v : V)
    (hnd : (m.map Prod.fst).Nodup) (h : (k, v) ∈ m) : mapLookup m k = some v := by
  induction m with
  | nil => simp at h
  | cons p rest ih =>
    cases p with
    | mk k0 v0 =>
      simp only [List.map_cons, List.nodup_cons] at hnd
      rcases List.mem_cons.mp h with heq | hmem
      · cases heq
        simp [mapLookup]
      · have hk : k0 ≠ k := by
          intro hcontra
          exact hnd.1 (hcontra ▸ (List.mem_map.mpr ⟨(k, v), hmem, rfl⟩))
        simp only [mapLookup, if_neg hk]
        exact ih hnd.2 hmem

/-- The two error values declared in keys.go. -/
inductive DeleteError
  | ErrDeleteCurrentKey
  | ErrNoSuchKey
deriving DecidableEq, Repr

/--
json.Marshal of the public jwk.Set (keys.go `publicSetJWK`), modelled as the
list of public key handles the set contains.
-/
def marshalSet (ps : List Nat) : List Nat :=
  ps

/--
Keys (keys.go): the store of generated keys.  `current` is the signing key,
`generatedKeys` the kid-indexed map, `publicSet` the jwk.Set of public keys,
`publicSetJWK` the premarshaled snapshot served by WriteTo.
-/
structure Keys where
  current : GeneratedKey
  generatedKeys : List (String × GeneratedKey)
  publicSet : List Nat
  publicSetJWK : List Nat
deriving DecidableEq, Repr

/--
unsafeAddKey (keys.go): insert the key in the map, add its public part to the
set, and rebuild the premarshaled snapshot.
-/
def Keys.unsafeAddKey (keys : Keys) (newKey : GeneratedKey) : Keys :=
  let m := mapInsert keys.generatedKeys (newKey.KID) newKey
  let ps := keys.publicSet ++ [newKey.publicKey]
  { keys with generatedKeys := m, publicSet := ps, publicSetJWK := marshalSet ps }

/--
The Keys state built by a successful NewKeys (keys.go): the freshly generated
key becomes current and is added to the initially empty collection.
-/
def initialKeys (initialCurrent : GeneratedKey) : Keys :=
  Keys.unsafeAddKey
    { current := initialCurrent, generatedKeys := [], publicSet := [], publicSetJWK := [] }
    initialCurrent

/--
NewKeys (keys.go): key generation may fail, in which case the error is
returned; otherwise the store starts with the generated key as current.
The generator outcome is passed in explicitly.
-/
def NewKeys (gen : Except String GeneratedKey) : Except String Keys :=
  match gen with
  | Except.error e => Except.error e
  | Except.ok initialCurrent => Except.ok (initialKeys initialCurrent)

/--
Rotate (keys.go): generate outside the lock, then add the new key and swap
`current`.  On generation failure nothing is touched and the error is
returned.  The generator outcome is passed in explicitly.
-/
def Keys.Rotate (keys : Keys) (gen : Except String GeneratedKey) :
    Except String GeneratedKey × Keys :=
  match gen with
  | Except.error e => (Except.error e, keys)
  | Except.ok current => (Except.ok current, { keys.unsafeAddKey current with current := current })

/-- The branch of Delete (keys.go) past the current-key guard. -/
def Keys.deleteFound (keys : Keys) (kid : String) : Option DeleteError × Keys :=
  match mapLookup keys.generatedKeys kid with
  | none => (some DeleteError.ErrNoSuchKey, keys)
  | some gk =>
      let m := mapErase keys.generatedKeys kid
      let ps := keys.publicSet.erase gk.publicKey
      (none, { keys with generatedKeys := m, publicSet := ps, publicSetJWK := marshalSet ps })

/--
Delete (keys.go): refuses to delete the current key (guarded by the jwk
KeyID of the current key), errors on an unknown kid, and otherwise removes
the record, its public key, and rebuilds the snapshot.  Returns the Go error
value (`none` models a nil error).
-/
def Keys.Delete (keys : Keys) (kid : String) : Option DeleteError × Keys :=
  match keys.current.keyID with
  | some currentKID =>
      if currentKID = kid then (some DeleteError.ErrDeleteCurrentKey, keys)
      else keys.deleteFound kid
  | none => keys.deleteFound kid

/-- Get (keys.go): the record stored under `kid` together with the `exists` flag. -/
def Keys.Get (keys : Keys) (kid : String) : Option GeneratedKey × Bool :=
  match mapLookup keys.generatedKeys kid with
  | some gk => (some gk, true)
  | none => (none, false)

/-- Current (keys.go): the key currently used for signing. -/
def Keys.Current (keys : Keys) : GeneratedKey :=
  keys.current

/-- WriteTo (keys.go): the bytes written are the premarshaled public snapshot. -/
def Keys.WriteTo (keys : Keys) : List Nat :=
  keys.publicSetJWK

/--
Keys generated by KeyGenerator.Generate always carry their kid in the jwk
key's KeyID field (keyGenerator.go sets jwk.KeyIDKey on success).
-/
def GeneratedKey.wf (gk : GeneratedKey) : Prop :=
  gk.keyID = some gk.kid

/--
States reachable from a successful NewKeys by any sequence of Rotate
(successful or failed generation) and Delete calls.  Generated keys are
arbitrary apart from carrying their kid as the jwk KeyID.
-/
inductive ReachableAny : Keys → Prop
  | init (k : GeneratedKey) (hwf : k.wf) : ReachableAny (initialKeys k)
  | rotateOk (s : Keys) (k : GeneratedKey) (hwf : k.wf) (h : ReachableAny s) :
      ReachableAny (s.Rotate (Except.ok k)).2
  | rotateErr (s : Keys) (e : String) (h : ReachableAny s) :
      ReachableAny (s.Rotate (Except.error e)).2
  | delete (s : Keys) (kid : String) (h : ReachableAny s) :
      ReachableAny (s.Delete kid).2

/--
The store consistency invariant: in any reachable state the current key is
well-formed and its kid is bound to it in the records map.
-/
theorem reachableAny_invariant (s : Keys) (h : ReachableAny s) :
    s.current.wf ∧ mapLookup s.generatedKeys s.current.kid = some s.current := by
  induction h with
  | init k hwf =>
      refine ⟨hwf, ?_⟩
      simp [initialKeys, Keys.unsafeAddKey, GeneratedKey.KID, mapLookup_mapInsert_self]
  | rotateOk s k hwf h ih =>
      refine ⟨hwf, ?_⟩
      simp [Keys.Rotate, Keys.unsafeAddKey, GeneratedKey.KID, mapLookup_mapInsert_self]
  | rotateErr s e h ih =>
      exact ih
  | delete s kid h ih =>
      obtain ⟨hwf, hlk⟩ := ih
      rw [Keys.Delete, hwf]
      by_cases hk : s.current.kid = kid
      · simp only [if_pos hk]
        exact ⟨hwf, hlk⟩
      · simp only [if_neg hk, Keys.deleteFound]
        cases hfound : mapLookup s.generatedKeys kid with
        | none => exact ⟨hwf, hlk⟩
        | some gk =>
            refine ⟨hwf, ?_⟩
            simpa [mapLookup_mapErase_ne s.generatedKeys s.current.kid kid hk] using hlk

/--
Modelled from the spec: `Rotate(generator) → (previousCurrent, newCurrent, err)`.
rotateTask.run (rotator.go) calls this three-value Rotate
(`old, _, err := rt.keys.Rotate()`), but its definition is not among the
source files here: keys.go holds the older two-value Rotate.  Per the spec,
generation happens outside the lock, then the new record is inserted,
`current` is swapped and the snapshot rebuilt, and the prior current record
is returned so the caller can schedule its retirement.
-/
def Keys.RotateFull (keys : Keys) (gen : Except String GeneratedKey) :
    Except String (GeneratedKey × GeneratedKey) × Keys :=
  match gen with
  | Except.error e => (Except.error e, keys)
  | Except.ok newCurrent =>
      (Except.ok (keys.current, newCurrent),
        { keys.unsafeAddKey newCurrent with current := newCurrent })

/--
One tick of rotateTask.run (rotator.go): on a successful rotation the kid of
the returned previous current key is handed to the spawned cleanup goroutine;
on failure the error is only logged.  Returns the new store state and the kid
scheduled for retirement, if any.
-/
def rotateTaskStep (keys : Keys) (gen : Except String GeneratedKey) : Keys × Option String :=
  match keys.RotateFull gen with
  | (Except.ok og, s) => (s, some (og.1.KID))
  | (Except.error _, s) => (s, none)

/--
The two events rotateTask.cleanup (rotator.go) can wake on: the Rotator's
context being cancelled by Stop before the grace period elapses, or the grace
timer firing.
-/
inductive CleanupEvent
  | ctxDone
  | timerFired
deriving DecidableEq, Repr

/--
rotateTask.cleanup (rotator.go): waits for the first of the two events; if
the context was cancelled it returns without touching the store, otherwise it
deletes its kid.  Returns the resulting store state.
-/
def rotateTaskCleanup (keys : Keys) (ev : CleanupEvent) (kid : String) : Keys :=
  match ev with
  | CleanupEvent.ctxDone => keys
  | CleanupEvent.timerFired => (keys.Delete kid).2

/-- A concrete generated key used to instantiate the reachability hypotheses. -/
def sampleKey : GeneratedKey :=
  { alg := Alg.ES256, kid := "k0", keyID := some "k0", publicKey := 0 }

/-- The store state after a successful NewKeys on `sampleKey`. -/
def sampleState : Keys :=
  initialKeys sampleKey

/--
C1: for every successful call to Rotate, the value returned to the caller is
the pair of the record that was current immediately before the call and the
newly generated record, the new record becomes current, and the rotate task
schedules retirement exactly for the previous current record's kid.
-/
theorem rotate_returns_previous_current (s : Keys) (k : GeneratedKey) :
    (s.RotateFull (Except.ok k)).1 = Except.ok (s.Current, k) ∧
    ((s.RotateFull (Except.ok k)).2).Current = k ∧
    (rotateTaskStep s (Except.ok k)).2 = some (s.Current.KID) :=
  ⟨rfl, rfl, rfl⟩

/--
C2: in every state reachable by NewKeys, Rotate and Delete from a successful
construction, the kid of the record returned by Current() is present in the
records map: Get(Current().KID()) returns that record with found = true.
-/
theorem current_kid_always_in_store (s : Keys) (h : ReachableAny s) :
    s.Get (s.Current.KID) = (some s.Current, true) := by
  obtain ⟨hwf, hlk⟩ := reachableAny_invariant s h
  simp [Keys.Get, Keys.Current, GeneratedKey.KID, hlk]

/-- Witness for C2 at the state built by NewKeys on `sampleKey`. -/
theorem current_kid_always_in_store_witness :
    sampleState.Get (sampleState.Current.KID) = (some sampleState.Current, true) :=
  current_kid_always_in_store sampleState (ReachableAny.init sampleKey rfl)

/--
C4: deleting the current record's kid in any reachable state returns
ErrDeleteCurrentKey and returns the state completely unchanged (records map,
current pointer and public snapshot), no matter how many times the call is
repeated; Current() therefore still resolves to the same kid afterwards.
-/
theorem delete_current_is_guarded_noop (s : Keys) (h : ReachableAny s) :
    s.Delete (s.Current.KID) = (some DeleteError.ErrDeleteCurrentKey, s) ∧
    ((s.Delete (s.Current.KID)).2).Current.KID = s.Current.KID ∧
    (∀ n : Nat, Nat.iterate (fun t => (t.Delete (t.Current.KID)).2) n s = s) := by
  obtain ⟨hwf, hlk⟩ := reachableAny_invariant s h
  have hdel : s.Delete (s.Current.KID) = (some DeleteError.ErrDeleteCurrentKey, s) := by
    rw [Keys.Delete, hwf]
    simp [Keys.Current, GeneratedKey.KID]
  refine ⟨hdel, by rw [hdel], ?_⟩
  intro n
  induction n with
  | zero => rfl
  | succ n ih =>
      rw [Function.iterate_succ_apply', ih, hdel]

/-- Witness for C4 at the state built by NewKeys on `sampleKey`. -/
theorem delete_current_is_guarded_noop_witness :
    sampleState.Delete (sampleState.Current.KID) =
      (some DeleteError.ErrDeleteCurrentKey, sampleState) ∧
    ((sampleState.Delete (sampleState.Current.KID)).2).Current.KID =
      sampleState.Current.KID ∧
    (∀ n : Nat,
      Nat.iterate (fun t => (t.Delete (t.Current.KID)).2) n sampleState = sampleState) :=
  delete_current_is_guarded_noop sampleState (ReachableAny.init sampleKey rfl)

/--
C5: when key generation fails, Rotate returns the generation error and the
whole store state (records map, current pointer and public snapshot) is
exactly what it was before the call.
-/
theorem rotate_generation_failure_unchanged (s : Keys) (e : String) :
    s.Rotate (Except.error e) = (Except.error e, s) :=
  rfl

/--
C6: when the Rotator is stopped while a retirement task is still waiting out
its grace period, the task wakes on the cancelled context, never calls Delete
for its kid, and the superseded key stays in the store and retrievable via
Get; shutdown performs no further mutation of stored state.
-/
theorem stop_abandons_retirement (s : Keys) (kid : String) (gk : GeneratedKey)
    (h : s.Get kid = (some gk, true)) :
    rotateTaskCleanup s CleanupEvent.ctxDone kid = s ∧
    (rotateTaskCleanup s CleanupEvent.ctxDone kid).Get kid = (some gk, true) :=
  ⟨rfl, h⟩

/-- Witness for C6: the initial key survives a cancelled retirement task. -/
theorem stop_abandons_retirement_witness :
    rotateTaskCleanup sampleState CleanupEvent.ctxDone "k0" = sampleState ∧
    (rotateTaskCleanup sampleState CleanupEvent.ctxDone "k0").Get "k0" =
      (some sampleKey, true) :=
  stop_abandons_retirement sampleState "k0" sampleKey (by decide)

/--
States reachable by NewKeys, Rotate and Delete when generation is fresh:
each generated key's kid is new to the records map and its public material
is new to the public set (the spec treats kid collisions as negligible and
requires kid uniqueness within a store instance).
-/
inductive ReachableFresh : Keys → Prop
  | init (k : GeneratedKey) (hwf : k.wf) : ReachableFresh (initialKeys k)
  | rotateOk (s : Keys) (k : GeneratedKey) (hwf : k.wf)
      (hkid : mapLookup s.generatedKeys k.kid = none)
      (hpk : k.publicKey ∉ s.publicSet)
      (h : ReachableFresh s) : ReachableFresh (s.Rotate (Except.ok k)).2
  | rotateErr (s : Keys) (e : String) (h : ReachableFresh s) :
      ReachableFresh (s.Rotate (Except.error e)).2
  | delete (s : Keys) (kid : String) (h : ReachableFresh s) :
      ReachableFresh (s.Delete kid).2

/--
The bookkeeping invariant tying the three mutable components of a Keys
together: the premarshaled snapshot is the serialization of the public set,
map keys are distinct, public key handles are distinct, and the public set
holds exactly the public material of the stored records.
-/
def Keys.snapshotInv (s : Keys) : Prop :=
  s.publicSetJWK = marshalSet s.publicSet ∧
  (s.generatedKeys.map Prod.fst).Nodup ∧
  s.publicSet.Nodup ∧
  s.publicSet.Perm (s.generatedKeys.map (fun p => p.2.publicKey))

theorem mapErase_map_publicKey (m : List (String × GeneratedKey)) (kid : String)
    (gk : GeneratedKey)
    (hnd : (m.map Prod.fst).Nodup)
    (hpknd : (m.map (fun p => p.2.publicKey)).Nodup)
    (hl : mapLookup m kid = some gk) :
    (mapErase m kid).map (fun p => p.2.publicKey) =
      (m.map (fun p => p.2.publicKey)).erase gk.publicKey := by
  induction m with
  | nil => simp [mapLookup] at hl
  | cons p rest ih =>
    cases p with
    | mk k0 v =>
      simp only [List.map_cons, List.nodup_cons] at hnd hpknd
      by_cases hk : k0 = kid
      · simp only [mapLookup, if_pos hk] at hl
        cases hl
        have hrest : mapLookup rest kid = none := by
          rw [mapLookup_eq_none_iff]
          exact hk ▸ hnd.1
        simp only [mapErase, if_pos hk, mapErase_eq_self_of_lookup_none rest kid hrest,
          List.map_cons, List.erase_cons_head]
      · simp only [mapLookup, if_neg hk] at hl
        have hmem : v.publicKey ≠ gk.publicKey := by
          intro hc
          exact hpknd.1 (hc ▸ List.mem_map.mpr ⟨(kid, gk), mem_of_mapLookup_eq_some rest kid gk hl, rfl⟩)
        simp only [mapErase, if_neg hk, List.map_cons, List.erase_cons,
          ih hnd.2 hpknd.2 hl]
        simp [hmem]

/-- Every fresh-generation reachable state satisfies the snapshot invariant. -/
theorem reachableFresh_invariant (s : Keys) (h : ReachableFresh s) : s.snapshotInv := by
  induction h with
  | init k hwf =>
      refine ⟨rfl, ?_, ?_, ?_⟩ <;>
        simp [initialKeys, Keys.unsafeAddKey, GeneratedKey.KID, mapInsert, mapErase]
  | rotateOk s k hwf hkid hpk h ih =>
      obtain ⟨hjwk, hnd, hpsnd, hperm⟩ := ih
      have hmap : mapInsert s.generatedKeys k.kid k = (k.kid, k) :: s.generatedKeys := by
        rw [mapInsert, mapErase_eq_self_of_lookup_none s.generatedKeys k.kid hkid]
      refine ⟨rfl, ?_, ?_, ?_⟩
      · simp only [Keys.Rotate, Keys.unsafeAddKey, GeneratedKey.KID, hmap, List.map_cons]
        exact List.nodup_cons.mpr ⟨(mapLookup_eq_none_iff _ _).mp hkid, hnd⟩
      · simp only [Keys.Rotate, Keys.unsafeAddKey]
        exact List.Nodup.append hpsnd (List.nodup_singleton _)
          (fun a ha hb => hpk ((List.mem_singleton.mp hb) ▸ ha))
      · simp only [Keys.Rotate, Keys.unsafeAddKey, GeneratedKey.KID, hmap, List.map_cons]
        exact (List.perm_append_singleton _ _).trans (hperm.cons _)
  | rotateErr s e h ih =>
      exact ih
  | delete s kid h ih =>
      obtain ⟨hjwk, hnd, hpsnd, hperm⟩ := ih
      have hfound : ∀ u : Unit, (s.deleteFound kid).2.snapshotInv := by
        intro u
        rw [Keys.deleteFound]
        cases hl : mapLookup s.generatedKeys kid with
        | none => exact ⟨hjwk, hnd, hpsnd, hperm⟩
        | some gk =>
            have hpknd : (s.generatedKeys.map (fun p => p.2.publicKey)).Nodup :=
              hperm.nodup_iff.mp hpsnd
            refine ⟨rfl, ?_, ?_, ?_⟩
            · exact hnd.sublist ((mapErase_sublist s.generatedKeys kid).map Prod.fst)
            · exact hpsnd.erase _
            · rw [mapErase_map_publicKey s.generatedKeys kid gk hnd hpknd hl]
              exact hperm.erase _
      rw [Keys.Delete]
      cases hid : s.current.keyID with
      | none => exact hfound ()
      | some currentKID =>
          by_cases hk : currentKID = kid
          · simp only [if_pos hk]
            exact ⟨hjwk, hnd, hpsnd, hperm⟩
          · simp only [if_neg hk]
            exact hfound ()

/-- Inversion of Get: found = true means the map holds the record. -/
theorem get_eq_iff_mapLookup (s : Keys) (kid : String) (gk : GeneratedKey) :
    s.Get kid = (some gk, true) ↔ mapLookup s.generatedKeys kid = some gk := by
  rw [Keys.Get]
  cases h : mapLookup s.generatedKeys kid <;> simp

/--
C3: in every fresh-generation reachable state, the precomputed public
snapshot served by WriteTo contains the public material of every record in
the records map and no public material of any record not in the map.
-/
theorem snapshot_matches_store (s : Keys) (h : ReachableFresh s) (pk : Nat) :
    pk ∈ s.WriteTo ↔ ∃ kid gk, s.Get kid = (some gk, true) ∧ gk.publicKey = pk := by
  obtain ⟨hjwk, hnd, hpsnd, hperm⟩ := reachableFresh_invariant s h
  rw [Keys.WriteTo, hjwk, marshalSet, hperm.mem_iff]
  constructor
  · intro hmem
    rcases List.mem_map.mp hmem with ⟨p, hp, hpk⟩
    refine ⟨p.1, p.2, ?_, hpk⟩
    rw [get_eq_iff_mapLookup]
    exact mapLookup_eq_some_of_mem s.generatedKeys p.1 p.2 hnd hp
  · rintro ⟨kid, gk, hget, hpk⟩
    rw [get_eq_iff_mapLookup] at hget
    exact List.mem_map.mpr ⟨(kid, gk), mem_of_mapLookup_eq_some _ _ _ hget, hpk⟩

/-- Witness for C3 at the state built by NewKeys on `sampleKey`. -/
theorem snapshot_matches_store_witness :
    0 ∈ sampleState.WriteTo ↔
      ∃ kid gk, sampleState.Get kid = (some gk, true) ∧ gk.publicKey = 0 :=
  snapshot_matches_store sampleState (ReachableFresh.init sampleKey rfl) 0

/--
The outcome of io.ReadFull on the randomness source: the buffer contents
after the call and the error, if any (`none` models a nil error; on failure
the buffer holds whatever partial data was read, zero-filled).
-/
structure RandomRead where
  bytes : List Nat
  readErr : Option String
deriving DecidableEq, Repr

/-- base64.RawURLEncoding.EncodeToString, modelled as an opaque rendering of the bytes. -/
def base64RawURL (bs : List Nat) : String :=
  toString bs

/--
IDGenerator.Generate (the IDGenerator source file): fills a buffer from the
randomness source with io.ReadFull and encodes it URL-safely.  The error
returned by io.ReadFull is discarded — the identifier is built from the
buffer regardless of whether the read succeeded.
-/
def IDGenerator.Generate (random : RandomRead) : String :=
  base64RawURL random.bytes

/--
KeyGenerator.Generate (keyGenerator.go): builds the kid via
IDGenerator.Generate, then chains the fallible steps — raw key pair
generation (ecdsa/rsa GenerateKey), jwk.Import, PublicKey derivation,
json.Marshal of the public key — returning the first error.  Each
collaborator outcome is passed in explicitly as an opaque handle or error.
-/
def KeyGenerator.Generate (alg : Alg) (kidRead : RandomRead)
    (rawResult : Except String Nat) (importResult : Except String Nat)
    (publicResult : Except String Nat) (marshalResult : Except String (List Nat)) :
    Except String GeneratedKey :=
  let kid := IDGenerator.Generate kidRead
  match rawResult with
  | Except.error e => Except.error e
  | Except.ok _ =>
      match importResult with
      | Except.error e => Except.error e
      | Except.ok _ =>
          match publicResult with
          | Except.error e => Except.error e
          | Except.ok pub =>
              match marshalResult with
              | Except.error e => Except.error e
              | Except.ok _ =>
                  Except.ok { alg := alg, kid := kid, keyID := some kid, publicKey := pub }

/--
C7 counterexample: a run in which the randomness read for the kid bytes
fails (io.ReadFull reports an error, the buffer is zero-filled) while the
raw key pair generation and the later steps succeed.  Generate returns a key
record, not an error, because IDGenerator.Generate discards the read error.
-/
theorem generate_succeeds_despite_kid_read_failure :
    (KeyGenerator.Generate Alg.ES256
        { bytes := [0, 0, 0, 0], readErr := some "unexpected EOF" }
        (Except.ok 1) (Except.ok 2) (Except.ok 3) (Except.ok [4])).isOk = true :=
  rfl

/--
C7 amended: Generate returns an error exactly when one of the primitive
steps after kid generation fails — raw key pair generation, jwk import,
public key derivation, or marshalling; the outcome is independent of whether
the randomness read for the kid bytes failed.
-/
theorem generate_error_iff_primitive_failure (alg : Alg) (kidRead : RandomRead)
    (rawResult importResult publicResult : Except String Nat)
    (marshalResult : Except String (List Nat)) :
    (KeyGenerator.Generate alg kidRead rawResult importResult publicResult
        marshalResult).isOk
      = (rawResult.isOk && importResult.isOk && publicResult.isOk &&
          marshalResult.isOk) := by
  cases rawResult <;> cases importResult <;> cases publicResult <;>
    cases marshalResult <;> rfl

/-- The command-line configuration fields consumed by the key subsystem (commandLine.go). -/
structure CLI where
  KeyType : String
  KeyCurve : String
  KeySize : Int
  KeyRotate : Int
  Expires : Int
deriving DecidableEq, Repr

/-- The KeyGenerator configuration produced by NewKeyGenerator (keyGenerator.go). -/
structure KeyGenConfig where
  alg : Alg
  ec : Bool
  bits : Int
  curve : Option Curve
deriving DecidableEq, Repr

/--
NewKeyGenerator (keyGenerator.go): the configuration-time switch mapping key
type, curve and bit length to the signing algorithm; any other combination
fails construction with an error, so the process does not start.
-/
def NewKeyGenerator (cli : CLI) : Except String KeyGenConfig :=
  if cli.KeyType = "EC" ∧ cli.KeyCurve = "P-256" then
    Except.ok { alg := Alg.ES256, ec := true, bits := 0, curve := some Curve.P256 }
  else if cli.KeyType = "EC" ∧ cli.KeyCurve = "P-384" then
    Except.ok { alg := Alg.ES384, ec := true, bits := 0, curve := some Curve.P384 }
  else if cli.KeyType = "EC" ∧ cli.KeyCurve = "P-521" then
    Except.ok { alg := Alg.ES512, ec := true, bits := 0, curve := some Curve.P521 }
  else if cli.KeyType = "RSA" ∧ cli.KeySize > 0 then
    Except.ok { alg := Alg.RS256, ec := false, bits := cli.KeySize, curve := none }
  else
    Except.error "unsupported key parameters"

/--
C8: generator construction implements the total mapping EC,P-256 → ES256;
EC,P-384 → ES384; EC,P-521 → ES512; RSA,bits>0 → RS256, and every
configuration outside the mapping fails construction with an error.
-/
theorem newKeyGenerator_total_mapping (cli : CLI) :
    (cli.KeyType = "EC" → cli.KeyCurve = "P-256" →
      ∃ kg, NewKeyGenerator cli = Except.ok kg ∧ kg.alg = Alg.ES256) ∧
    (cli.KeyType = "EC" → cli.KeyCurve = "P-384" →
      ∃ kg, NewKeyGenerator cli = Except.ok kg ∧ kg.alg = Alg.ES384) ∧
    (cli.KeyType = "EC" → cli.KeyCurve = "P-521" →
      ∃ kg, NewKeyGenerator cli = Except.ok kg ∧ kg.alg = Alg.ES512) ∧
    (cli.KeyType = "RSA" → cli.KeySize > 0 →
      ∃ kg, NewKeyGenerator cli = Except.ok kg ∧ kg.alg = Alg.RS256) ∧
    (¬((cli.KeyType = "EC" ∧
          (cli.KeyCurve = "P-256" ∨ cli.KeyCurve = "P-384" ∨ cli.KeyCurve = "P-521")) ∨
        (cli.KeyType = "RSA" ∧ cli.KeySize > 0)) →
      ∃ e, NewKeyGenerator cli = Except.error e) := by
  refine ⟨?_, ?_, ?_, ?_, ?_⟩
  · intro h1 h2
    rw [NewKeyGenerator, if_pos (And.intro h1 h2)]
    exact ⟨_, rfl, rfl⟩
  · intro h1 h2
    rw [NewKeyGenerator]
    split_ifs with ha hb hc hd
    · rw [h2] at ha
      exact absurd ha.2 (by decide)
    · exact ⟨_, rfl, rfl⟩
    · exact absurd ⟨h1, h2⟩ hb
    · exact absurd ⟨h1, h2⟩ hb
    · exact absurd ⟨h1, h2⟩ hb
  · intro h1 h2
    rw [NewKeyGenerator]
    split_ifs with ha hb hc hd
    · rw [h2] at ha
      exact absurd ha.2 (by decide)
    · rw [h2] at hb
      exact absurd hb.2 (by decide)
    · exact ⟨_, rfl, rfl⟩
    · exact absurd ⟨h1, h2⟩ hc
    · exact absurd ⟨h1, h2⟩ hc
  · intro h1 h2
    rw [NewKeyGenerator]
    split_ifs with ha hb hc hd
    · rw [h1] at ha
      exact absurd ha.1 (by decide)
    · rw [h1] at hb
      exact absurd hb.1 (by decide)
    · rw [h1] at hc
      exact absurd hc.1 (by decide)
    · exact ⟨_, rfl, rfl⟩
    · exact absurd ⟨h1, h2⟩ hd
  · intro h
    rw [NewKeyGenerator]
    split_ifs with ha hb hc hd
    · exact absurd (Or.inl ⟨ha.1, Or.inl ha.2⟩) h
    · exact absurd (Or.inl ⟨hb.1, Or.inr (Or.inl hb.2)⟩) h
    · exact absurd (Or.inl ⟨hc.1, Or.inr (Or.inr hc.2)⟩) h
    · exact absurd (Or.inr hd) h
    · exact ⟨_, rfl⟩

/-- Witness for C8: one combination inside the mapping and one outside it. -/
theorem newKeyGenerator_total_mapping_witness :
    (∃ kg, NewKeyGenerator
        { KeyType := "EC", KeyCurve := "P-256", KeySize := 2048,
          KeyRotate := 0, Expires := 0 } = Except.ok kg ∧ kg.alg = Alg.ES256) ∧
    (∃ e, NewKeyGenerator
        { KeyType := "EC", KeyCurve := "P-512", KeySize := 2048,
          KeyRotate := 0, Expires := 0 } = Except.error e) :=
  ⟨(newKeyGenerator_total_mapping _).1 rfl rfl,
   (newKeyGenerator_total_mapping _).2.2.2.2 (by decide)⟩

/--
Key (issuer.go declaration): a signing/verification key record with its
identifier, algorithm tag, opaque jwk handle, and creation and expiry
timestamps (Go time values, modelled as integer nanoseconds).
-/
structure Key where
  KID : String
  alg : Alg
  key : Nat
  Created : Int
  Expires : Int
deriving DecidableEq, Repr

/-- time.Minute in nanoseconds (the Go time.Duration unit). -/
def minuteNs : Int :=
  60000000000

/--
The grace computation of NewRotator (rotator.go): the configured token
expiry plus one minute.
-/
def rotatorGrace (cli : CLI) : Int :=
  cli.Expires + minuteNs

/--
Modelled from the spec: the generator stamps each Key record with created
and expires timestamps satisfying
expires = created + rotationInterval + tokenTTL + safetyMargin.  The Key
declaration (issuer.go) and the formula in the Rotator documentation
(rotation + token expires + 1m grace) are in the sources, but the stamping
code itself is not among the source files.
-/
def stampKeyRecord (kid : String) (alg : Alg) (keyHandle : Nat)
    (created rotationInterval tokenTTL safetyMargin : Int) : Key :=
  { KID := kid, alg := alg, key := keyHandle, Created := created,
    Expires := created + rotationInterval + tokenTTL + safetyMargin }

/--
C9: every stamped Key record satisfies
expires = created + rotationInterval + tokenTTL + safetyMargin, and in
particular expires > created whenever the rotation interval and token TTL
are nonnegative and the safety margin is positive (rotator.go uses one
minute).
-/
theorem stamped_key_expiry (kid : String) (alg : Alg) (kh : Nat)
    (created rotationInterval tokenTTL safetyMargin : Int)
    (hrot : 0 ≤ rotationInterval) (httl : 0 ≤ tokenTTL)
    (hmargin : 0 < safetyMargin) :
    (stampKeyRecord kid alg kh created rotationInterval tokenTTL
        safetyMargin).Expires
      = created + rotationInterval + tokenTTL + safetyMargin ∧
    created < (stampKeyRecord kid alg kh created rotationInterval tokenTTL
        safetyMargin).Expires := by
  refine ⟨rfl, ?_⟩
  simp only [stampKeyRecord]
  linarith

/-- Witness for C9 at a one-day rotation, 15-minute TTL and one-minute margin. -/
theorem stamped_key_expiry_witness :
    (stampKeyRecord "k" Alg.ES256 0 0 86400000000000 900000000000
        minuteNs).Expires
      = 0 + 86400000000000 + 900000000000 + minuteNs ∧
    0 < (stampKeyRecord "k" Alg.ES256 0 0 86400000000000 900000000000
        minuteNs).Expires :=
  stamped_key_expiry "k" Alg.ES256 0 0 86400000000000 900000000000 minuteNs
    (by decide) (by decide) (by decide)

/-- InMemoryKeyStore (the KeyStore source file): a kid-indexed map of Keys. -/
abbrev InMemoryKeyStore : Type :=
  List (String × Key)

/-- The ErrNoSuchKey message of the KeyStore source file. -/
def errNoSuchKeyMsg : String :=
  "no key exists with that KID"

/--
InMemoryKeyStore.Store: an unconditional map assignment under the lock;
always returns a nil error (modelled as `none`).
-/
def InMemoryKeyStore.Store (s : InMemoryKeyStore) (k : Key) :
    Option String × InMemoryKeyStore :=
  (none, mapInsert s k.KID k)

/-- InMemoryKeyStore.Load: map lookup; ErrNoSuchKey when the kid is absent. -/
def InMemoryKeyStore.Load (s : InMemoryKeyStore) (kid : String) : Except String Key :=
  match mapLookup s kid with
  | some k => Except.ok k
  | none => Except.error errNoSuchKeyMsg

/--
C10: Store returns a nil error for every key and every prior store content,
and it is an unconditional upsert: any record previously bound to k.KID is
silently replaced, after which Load(k.KID) returns k.
-/
theorem inmemory_store_upsert (s : InMemoryKeyStore) (k : Key) :
    (s.Store k).1 = none ∧ ((s.Store k).2).Load k.KID = Except.ok k := by
  refine ⟨rfl, ?_⟩
  simp [InMemoryKeyStore.Store, InMemoryKeyStore.Load, mapLookup_mapInsert_self]

end Utu
